import Mathlib

/-
  Lean 4 model of the ESP32Animator LED animation engine
  (repository sources: src/render.cpp, src/unnamed/part_001 .. part_010).

  Modeling conventions:
  * Machine integers (uint8_t, uint16_t, uint32_t, size_t, unsigned long) are
    modeled as Nat; a narrowing cast such as static_cast<uint8_t> is made
    explicit by a `% 256` (castU8n) exactly where the source casts.
  * C++ float / double fields (speedCoefficient, peakBrightnessCoefficient,
    minBrightness, ...) are modeled as exact rationals.  The operations the
    sources apply to them (std::max, std::clamp, multiplication by a small
    integer, division) are order- or ring-operations whose rational results
    coincide with the float results for the values exercised here; float
    literals are translated to the exact rational value of the float
    (e.g. the literal 0.1f is exactly 13421773/134217728).
  * static_cast<uint8_t> applied to a float truncates; for arguments in
    [0, 256) - the only range where the C++ cast is defined - this is the
    floor, which castU8 takes (followed by the wrap that is vacuous there).
  * The transcendental cos used by createBreatheAnimation is not computable;
    the generator is parametrized by the cosine implementation cosQ together
    with the pi constant piQ, and theorems assume only the two values that a
    faithful math library produces exactly (cos 0 = 1 and cos pi = -1; the
    double result of cos at the double approximation of pi rounds to exactly
    -1.0, since cos(pi + e) = -1 + e^2/2 and e is about 1.2e-16).
  * Mutexes: operations that merely bracket a field access with a
    lock_guard are modeled by the field access itself.  The one place where
    lock structure is semantically relevant - Renderer::setRepeat of
    src/unnamed/part_003, which re-locks its own non-recursive std::mutex -
    is modeled with an explicit lock flag and an Option result, `none`
    standing for the undefined behaviour / deadlock of re-locking.
  * Concurrency: the render loop and interruptableDelay are modeled against
    an explicit environment - a stream of values the exitEarly flag has at
    each poll - or, for whole render passes, against a quiescent environment
    with no concurrent writer.
-/

/-- One LED's address and color, from `struct Pixel` of src/unnamed/part_006
(`index : uint16_t`, `r g b : uint8_t`).  The generator files that use
`std::array<uint8_t, 4>` (src/render.cpp, src/unnamed/part_010) store the
same four components in array order, so this structure also models those. -/
structure Pixel where
  index : Nat
  r : Nat
  g : Nat
  b : Nat
deriving Repr, DecidableEq

/-- `using Frame = std::vector<Pixel>` (src/unnamed/part_006). -/
abbrev Frame := List Pixel

/-- `using FrameBuffer = std::vector<Frame>` (src/unnamed/part_006). -/
abbrev FrameBuffer := List Frame

/-- `Pixel::operator=` (src/unnamed/part_006 lines 37-44): copies only the
color channels of `other`; the index of the assigned-to pixel is kept. -/
def Pixel.assign (p other : Pixel) : Pixel :=
  { p with r := other.r, g := other.g, b := other.b }

/-- The wrap performed by `static_cast<uint8_t>` on an integer. -/
def castU8n (n : Nat) : Nat := n % 256

/-- `static_cast<uint8_t>` applied to a float value, modeled on rationals:
truncation (= floor on the defined range [0, 256)) followed by the wrap. -/
def castU8 (q : ℚ) : Nat := (Int.toNat ⌊q⌋) % 256

/-- 2^32, the modulus of uint32_t arithmetic. -/
def U32 : Nat := 4294967296

/-- One step of `Animation::hash_string_runtime` (src/unnamed/part_006
lines 70-76): `hash = ((hash << 5) + hash) + str[i]` on uint32_t. -/
def hashStep (h c : Nat) : Nat := ((h <<< 5) + h + c) % U32

/-- The byte sequence of an animation name (names in this repository are
ASCII, for which the Unicode code point is the byte). -/
def strBytes (s : String) : List Nat := s.data.map Char.toNat

/-- `Animation::hash_string_runtime` (src/unnamed/part_006 lines 70-76):
`hash = 5381`, then one `hashStep` per character. -/
def hash_string_runtime (s : String) : Nat :=
  (strBytes s).foldl hashStep 5381

/-- The DJB2 hash exactly as the specification words it:
`hash = 5381; for each byte c: hash = hash*33 + c`, on a 32-bit word. -/
def hashDJB2 (s : String) : Nat :=
  (strBytes s).foldl (fun h c => (h * 33 + c) % U32) 5381

/-- `struct Animation` (src/unnamed/part_006): a name, the cached hash of
the name, and the owned frame buffer.  The mutex is bracketed field access
and is not represented. -/
structure Animation where
  name : String
  nameHash : Nat
  frames : FrameBuffer

/-- `Animation(const std::string&, const FrameBuffer&)` constructor
(src/unnamed/part_006 lines 60-63): hash computed from the name. -/
def Animation.ofName (s : String) (fb : FrameBuffer) : Animation :=
  { name := s, nameHash := hash_string_runtime s, frames := fb }

/-- The default `Animation()` constructor: name "NONE". -/
def Animation.default : Animation := Animation.ofName ("NONE") []

/-- `Animation::setName` (src/unnamed/part_006 lines 175-179). -/
def Animation.setName (a : Animation) (s : String) : Animation :=
  { a with name := s, nameHash := hash_string_runtime s }

/-- `Animation::setFrames` (src/unnamed/part_006 lines 202-206):
replaces the frames, does not touch name or nameHash. -/
def Animation.setFrames (a : Animation) (fb : FrameBuffer) : Animation :=
  { a with frames := fb }

/-- `Animation::clearFrames` (src/unnamed/part_006 lines 236-242):
clears the frames and resets the name to "NONE" with its hash. -/
def Animation.clearFrames (_a : Animation) : Animation :=
  { name := "NONE", nameHash := hash_string_runtime ("NONE"), frames := [] }

/-- Copy assignment `Animation::operator=` (src/unnamed/part_006
lines 114-126); the move assignment (lines 147-158) has the same effect on
the assigned-to object (name, nameHash and frames all taken from `other`). -/
def Animation.assign (_a other : Animation) : Animation :=
  { name := other.name, nameHash := other.nameHash, frames := other.frames }

/-- The invariant claimed for Animation: the cached hash is the hash of the
current name. -/
def hashInv (a : Animation) : Prop := a.nameHash = hash_string_runtime a.name

instance (a : Animation) : Decidable (hashInv a) := by
  unfold hashInv; infer_instance

/-- The Animation mutations available to consumers (src/unnamed/part_006):
`setName`, `setFrames`, `clearFrames`, and whole-object copy / move
assignment from another animation. -/
inductive AnimOp where
  | setName (s : String)
  | setFrames (fb : FrameBuffer)
  | clearFrames
  | assign (other : Animation)

/-- Effect of one Animation operation. -/
def AnimOp.apply (a : Animation) : AnimOp → Animation
  | .setName s => a.setName s
  | .setFrames fb => a.setFrames fb
  | .clearFrames => a.clearFrames
  | .assign other => a.assign other

/-- Well-formedness of an operation: assignment sources must themselves
satisfy the hash invariant (in the program every Animation is built by the
constructors and mutated by these same operations, so this always holds). -/
def AnimOp.ok : AnimOp → Prop
  | .assign other => hashInv other
  | _ => True

/-- Model of the Adafruit_NeoPixel strip: its length and the staged color
of every position.  `setPixelColor` below reproduces the library's own
bounds check (`if (n < numLEDs)`). -/
structure NeoPixel where
  numLEDs : Nat
  colors : Nat → Nat × Nat × Nat

/-- A strip of length `n` with all pixels staged to off, as produced by the
Adafruit constructor / `updateLength` (both zero the pixel buffer). -/
def NeoPixel.cleared (n : Nat) : NeoPixel :=
  { numLEDs := n, colors := fun _ => (0, 0, 0) }

/-- `Adafruit_NeoPixel::setPixelColor`: stages a color if the position is
inside the strip, otherwise does nothing. -/
def NeoPixel.setPixelColor (s : NeoPixel) (n : Nat) (c : Nat × Nat × Nat) : NeoPixel :=
  if n < s.numLEDs then
    { s with colors := fun j => if j = n then c else s.colors j }
  else s

/-- `struct Renderer` of src/unnamed/part_003 (the std::mutex variant):
configuration, flags, the strip handle and the owned current animation.
The field the source calls `repeat` is `repeatFlag` here (`repeat` is a
Lean keyword); `isRunning_` keeps its source name. -/
structure Renderer where
  exitEarly : Bool
  isRunning_ : Bool
  repeatFlag : Bool
  pin : Nat
  ledCount : Nat
  frameDelayMs : Nat
  repeatDelayMs : Nat
  speedCoefficient : ℚ
  peakBrightnessCoefficient : ℚ
  screen : NeoPixel
  currentAnimation : Animation

/-- The default-constructed Renderer of src/unnamed/part_003 lines 104-124:
ledCount 10, pin 42, delays 50, speed 1.0, peak brightness 0.40f (exactly
13421773/33554432 as a float), repeat true, not running, exitEarly false,
strip of length ledCount, default Animation. -/
def rend0 : Renderer :=
  { exitEarly := false
    isRunning_ := false
    repeatFlag := true
    pin := 42
    ledCount := 10
    frameDelayMs := 50
    repeatDelayMs := 50
    speedCoefficient := 1
    peakBrightnessCoefficient := 13421773 / 33554432
    screen := NeoPixel.cleared 10
    currentAnimation := Animation.default }

/-- `RenderState` of src/unnamed/part_003 lines 10-47: the snapshot type
the render loop reads. -/
structure RenderState where
  exitEarly : Bool
  isRunning : Bool
  repeatFlag : Bool
  ledCount : Nat
  pin : Nat
  frameDelayMs : Nat
  repeatDelayMs : Nat
  speedCoefficient : ℚ
  peakBrightnessCoefficient : ℚ
  currentAnimationName : String
  currentAnimationHash : Nat

/-- `Renderer::outputState` (src/unnamed/part_003 lines 139-154). -/
def Renderer.outputState (rend : Renderer) : RenderState :=
  { exitEarly := rend.exitEarly
    isRunning := rend.isRunning_
    repeatFlag := rend.repeatFlag
    ledCount := rend.ledCount
    pin := rend.pin
    frameDelayMs := rend.frameDelayMs
    repeatDelayMs := rend.repeatDelayMs
    speedCoefficient := rend.speedCoefficient
    peakBrightnessCoefficient := rend.peakBrightnessCoefficient
    currentAnimationName := rend.currentAnimation.name
    currentAnimationHash := rend.currentAnimation.nameHash }

/-- `Renderer::isRunning` accessor (src/unnamed/part_003 lines 198-201). -/
def Renderer.isRunning (rend : Renderer) : Bool := rend.isRunning_

/-- `Renderer::setRunning` (src/unnamed/part_003 lines 207-210), as called
with the renderer's mutex free. -/
def Renderer.setRunning (rend : Renderer) (running : Bool) : Renderer :=
  { rend with isRunning_ := running }

/-- `Renderer::setRunning` as invoked by a caller that already holds
`mutex_`: the lock_guard inside setRunning re-locks the same non-recursive
std::mutex, which is undefined behaviour (a deadlock in practice), modeled
as `none`. -/
def Renderer.setRunningHeld (rend : Renderer) (mutexHeld running : Bool) :
    Option Renderer :=
  if mutexHeld then none else some (rend.setRunning running)

/-- `Renderer::setEarlyExit` (src/unnamed/part_003 lines 393-396). -/
def Renderer.setEarlyExit (rend : Renderer) (e : Bool) : Renderer :=
  { rend with exitEarly := e }

/-- `Renderer::getEarlyExit` (src/unnamed/part_003 lines 411-414). -/
def Renderer.getEarlyExit (rend : Renderer) : Bool := rend.exitEarly

/-- `Renderer::isAnimationEmpty` (src/unnamed/part_003 lines 402-405). -/
def Renderer.isAnimationEmpty (rend : Renderer) : Bool :=
  rend.currentAnimation.frames.isEmpty

/-- The exact rational value of the float literal `0.1f` used as the speed
floor in src/unnamed/part_003 line 327. -/
def minSpeedFloat : ℚ := 13421773 / 134217728

/-- `Renderer::setSpeed` (src/unnamed/part_003 lines 325-328):
`speedCoefficient = std::max(0.1f, speed)`.  It touches no other field;
in particular it does not set `exitEarly`. -/
def Renderer.setSpeed (rend : Renderer) (speed : ℚ) : Renderer :=
  { rend with speedCoefficient := max minSpeedFloat speed }

/-- `Renderer::setPeakBrightness` (src/unnamed/part_003 lines 261-264):
`std::clamp(brightness, 0.0f, 1.0f)`. -/
def Renderer.setPeakBrightness (rend : Renderer) (brightness : ℚ) : Renderer :=
  { rend with peakBrightnessCoefficient := min (max brightness 0) 1 }

/-- `Renderer::setRepeat` (src/unnamed/part_003 lines 304-310).  The
lock_guard acquires `mutex_` on entry and holds it until return; the body
sets `repeat` and, when the new value is true, calls `this->setRunning`
while the mutex is still held - see `Renderer.setRunningHeld`. -/
def Renderer.setRepeat (rend : Renderer) (rep : Bool) : Option Renderer :=
  let r1 := { rend with repeatFlag := rep }
  if rep then r1.setRunningHeld true rep else some r1

/-- `Renderer::setLedCount` (src/unnamed/part_003 lines 353-360):
rejects `count == 0 || count > 65535`, otherwise stores the count and
resizes the strip (`updateLength` reallocates a zeroed pixel buffer). -/
def Renderer.setLedCount (rend : Renderer) (count : Nat) : Renderer :=
  if count = 0 ∨ 65535 < count then rend
  else { rend with ledCount := count, screen := NeoPixel.cleared count }

/-- The color triple `writeFrameToScreen` stages for one pixel: every
channel multiplied by the peak brightness coefficient and cast to uint8. -/
def stagedPixel (coef : ℚ) (p : Pixel) : Nat × Nat × Nat :=
  (castU8 ((p.r : ℚ) * coef), castU8 ((p.g : ℚ) * coef), castU8 ((p.b : ℚ) * coef))

/-- The loop body of `Renderer::writeFrameToScreen` for one pixel of the
frame: `if (pixel.index >= ledCount) continue;` then stage the scaled
color. -/
def stageStep (ledCount : Nat) (coef : ℚ) (scr : NeoPixel) (p : Pixel) : NeoPixel :=
  if ledCount ≤ p.index then scr
  else scr.setPixelColor p.index (stagedPixel coef p)

/-- `Renderer::writeFrameToScreen` (src/unnamed/part_003 lines 282-298):
for each pixel of the frame, skip it if `index >= ledCount`, otherwise
stage the brightness-scaled color; then one `screen.show()`.  The second
component counts the hardware flushes the call performs. -/
def Renderer.writeFrameToScreen (rend : Renderer) (frame : Frame) :
    Renderer × Nat :=
  let screen1 := frame.foldl
    (stageStep rend.ledCount rend.peakBrightnessCoefficient) rend.screen
  ({ rend with screen := screen1 }, 1)

/-- The first loop of `Renderer::interruptableDelay` (src/unnamed/part_003
lines 434-438): one poll of the early-exit flag before each chunk sleep.
`polls n` is the value the (n+1)-th read of `exitEarly` observes.  Returns
`Sum.inl (true, pollsMade, sleptMs)` on an early return, otherwise
`Sum.inr (nextPollIdx, sleptMs)` after all chunks. -/
def chunkPhase (polls : Nat → Bool) (check : Nat) :
    Nat → Nat → Nat → (Bool × Nat × Nat) ⊕ (Nat × Nat)
  | 0, i, slept => Sum.inr (i, slept)
  | k + 1, i, slept =>
    if polls i then Sum.inl (true, i + 1, slept)
    else chunkPhase polls check k (i + 1) (slept + check)

/-- `Renderer::interruptableDelay` (src/unnamed/part_003 lines 425-449;
textually the same algorithm as src/unnamed/part_001 lines 292-315 and
src/unnamed/part_002 lines 395-419): sleeps `milliseconds` in
`checkEveryMs`-sized chunks, polling the early-exit flag before each chunk,
once more before a partial remainder chunk, and once at the very end; an
observed `true` returns immediately.  The result is the returned Bool, the
number of polls performed, and the milliseconds actually slept.  The
function only reads the flag (the `polls` stream); it never writes it. -/
def interruptableDelay (milliseconds checkEveryMs : Nat) (polls : Nat → Bool) :
    Bool × Nat × Nat :=
  let checks := milliseconds / checkEveryMs
  let remainder := milliseconds % checkEveryMs
  match chunkPhase polls checkEveryMs checks 0 0 with
  | Sum.inl r => r
  | Sum.inr (i, slept) =>
    if 0 < remainder then
      if polls i then (true, i + 1, slept)
      else (polls (i + 1), i + 2, slept + remainder)
    else (polls i, i + 1, slept)

/-- The number of polls `interruptableDelay` schedules when the flag is
never observed true: one per whole chunk, one for a partial remainder
chunk, and one final. -/
def totalPolls (ms check : Nat) : Nat :=
  ms / check + (if ms % check = 0 then 0 else 1) + 1

/-- The milliseconds `interruptableDelay` has slept when it performs poll
number `j` (0-based): `j` whole chunks, capped by the total duration. -/
def sleptBeforePoll (ms check j : Nat) : Nat := min (j * check) ms

/-- The frame delay the render loop passes to `interruptableDelay`:
`(unsigned long)(state.frameDelayMs / state.speedCoefficient)`
(src/unnamed/part_010 line 1115). -/
def msDelay (state : RenderState) : Nat :=
  Int.toNat ⌊(state.frameDelayMs : ℚ) / state.speedCoefficient⌋

/-- The frame loop of `RenderState render(Renderer&)` (src/unnamed/part_010
lines 1098-1129), under a quiescent environment (no concurrent writer, so
every poll of the early-exit flag reads the stored field).  `remaining`
counts the loop iterations left (`frameCount - i`, enforcing the loop bound
`frameindex < frameCount`); `prevHash` is `previousNameHash`.  Returns the
final renderer and the list of frame indices written to the strip. -/
def renderLoop (frames : FrameBuffer) :
    Nat → Nat → Nat → RenderState → Renderer → Renderer × List Nat
  | 0, _, _, _, rend => (rend, [])
  | remaining + 1, i, prevHash, state, rend =>
    if ¬ state.isRunning then (rend, [])
    else if state.currentAnimationHash ≠ prevHash then (rend, [])
    else if ¬ state.isRunning then (rend, [])
    else
      let frame := frames.getD i []
      let rend1 := (rend.writeFrameToScreen frame).1
      let interrupted :=
        (interruptableDelay (msDelay state) 10 (fun _ => rend1.getEarlyExit)).1
      if interrupted then (rend1.setEarlyExit false, [i])
      else if ¬ state.repeatFlag then (rend1.setRunning false, [i])
      else
        let out := renderLoop frames remaining (i + 1)
          state.currentAnimationHash rend1.outputState rend1
        (out.1, i :: out.2)

/-- `RenderState render(Renderer&)` (src/unnamed/part_010 lines 1061-1133,
the variant using the part_003 Renderer): early-outs for a stopped renderer
or an empty animation, then one pass over the frame buffer.  The source
returns `rend.outputState()`; here the final renderer itself is returned
(the snapshot is `Renderer.outputState` of it) together with the indices of
the frames written. -/
def render (rend : Renderer) : Renderer × List Nat :=
  if ¬ rend.isRunning then (rend, [])
  else if rend.isAnimationEmpty then (rend, [])
  else
    let state := rend.outputState
    let frames := rend.currentAnimation.frames
    if frames.length = 0 then (rend, [])
    else renderLoop frames frames.length 0 state.currentAnimationHash state rend

/-- `struct Renderer` of src/unnamed/part_001 (the FreeRTOS-semaphore
variant).  The constructor (lines 32-50) leaves `earlyExit` uninitialized;
concrete instances below pick `false` for it. -/
structure RendererV1 where
  earlyExit : Bool
  RUNNING : Bool
  REPEAT : Bool
  LEDCOUNT : Nat
  PIN : Nat
  DELAY : Nat
  REPEATDELAY : Nat
  SPEED : ℚ
  PEAKBRIGHTNESS : ℚ
  SCREEN : NeoPixel
  CURRENTANIMATION : Animation

/-- `Renderer::setEarlyExit` of src/unnamed/part_001 lines 265-269. -/
def RendererV1.setEarlyExit (r : RendererV1) (e : Bool) : RendererV1 :=
  { r with earlyExit := e }

/-- `Renderer::setRunning` of src/unnamed/part_001 lines 119-123. -/
def RendererV1.setRunning (r : RendererV1) (running : Bool) : RendererV1 :=
  { r with RUNNING := running }

/-- `Renderer::setSpeed` of src/unnamed/part_001 lines 198-203: stores the
speed unchanged (no clamp), releases the lock, then sets earlyExit true. -/
def RendererV1.setSpeed (r : RendererV1) (speed : ℚ) : RendererV1 :=
  ({ r with SPEED := speed }).setEarlyExit true

/-- `Renderer::setRepeat` of src/unnamed/part_001 lines 176-181: stores the
repeat flag, gives the semaphore back, and only then (with no lock held)
calls setRunning when the new value is true. -/
def RendererV1.setRepeat (r : RendererV1) (rep : Bool) : RendererV1 :=
  let r1 := { r with REPEAT := rep }
  if rep then r1.setRunning rep else r1

/-- A default part_001 renderer (constructor defaults of lines 32-50,
with the uninitialized `earlyExit` taken as false). -/
def rendV1def : RendererV1 :=
  { earlyExit := false
    RUNNING := false
    REPEAT := true
    LEDCOUNT := 10
    PIN := 42
    DELAY := 50
    REPEATDELAY := 50
    SPEED := 1
    PEAKBRIGHTNESS := 13421773 / 33554432
    SCREEN := NeoPixel.cleared 10
    CURRENTANIMATION := Animation.default }

/-- The per-frame channel value of `createBreatheAnimation`
(src/render.cpp lines 208-218): eased sine brightness mapped into
[minBrightness, maxBrightness] and scaled to a byte. -/
def breatheVal (cosQ : ℚ → ℚ) (piQ minBrightness maxBrightness : ℚ) (i : Nat) : Nat :=
  let t : ℚ := (i : ℚ) / 90
  let easedT : ℚ := 1/2 - 1/2 * cosQ (t * piQ * 2)
  castU8 ((minBrightness + (maxBrightness - minBrightness) * easedT) * 255)

/-- `createBreatheAnimation` (src/render.cpp lines 195-241, identical in
src/unnamed/part_010 lines 139-185): an animation named "Breathe" of
exactly 90 dense frames; frame i sets every LED 0..ledCount-1 to the same
eased-sine channel value.  `cosQ` and `piQ` stand for the math library's
cos and the PI constant (see the header comment); `frequency` is a
parameter of the source that its body never reads. -/
def createBreatheAnimation (cosQ : ℚ → ℚ) (piQ : ℚ) (ledCount : Nat)
    (minBrightness maxBrightness _frequency : ℚ) : Animation :=
  Animation.ofName "Breathe" ((List.range 90).map (fun i =>
    let pixelval := breatheVal cosQ piQ minBrightness maxBrightness i
    (List.range ledCount).map (fun led =>
      Pixel.mk (castU8n led) pixelval pixelval pixelval)))

/-- One contracting-bar frame of `createExtinguishingBarAnimation`
(src/render.cpp lines 699-747): for each LED, full brightness inside the
bar, a graduated edge fade when `abruptFade` is false, and the pixel is
appended only when its brightness is positive (sparse frame). -/
def extinguishContractFrame (ledCount maxBrightness : Nat) (abruptFade : Bool)
    (extent : Nat) : Frame :=
  let middleLed := ledCount / 2
  let isOddCount := ledCount % 2 ≠ 0
  (List.range ledCount).filterMap (fun (led : Nat) =>
    let withinBar : Prop :=
      if isOddCount then
        (middleLed : Int) - extent ≤ led ∧ (led : Int) ≤ middleLed + extent
      else
        (middleLed : Int) - extent - 1 ≤ led ∧ (led : Int) ≤ middleLed + extent
    let brightness : Nat :=
      if withinBar then maxBrightness
      else if ¬ abruptFade then
        let leftEdge : Int := (middleLed : Int) - extent - (if isOddCount then 0 else 1)
        let rightEdge : Int := (middleLed : Int) + extent
        let distance : Nat :=
          min ((led : Int) - leftEdge).natAbs ((led : Int) - rightEdge).natAbs
        if distance ≤ 4 then maxBrightness - distance * maxBrightness / 2 else 0
      else 0
    if 0 < brightness then
      some (Pixel.mk (castU8n led) brightness brightness brightness)
    else none)

/-- `createExtinguishingBarAnimation` of src/render.cpp lines 663-832:
all-on frame, contracting-bar frames for extent = middleLed down to 0,
`max(1, retentionTime/100)` retention frames holding the center LED(s),
then 8 fade-out frames dimming the center.  The all-off frame the source
declares at line 826 is never appended to the frame list, so it does not
appear in the result. -/
def createExtinguishingBarAnimation (ledCount maxBrightness retentionTime : Nat)
    (abruptFade : Bool) : Animation :=
  let middleLed := ledCount / 2
  let isOddCount := ledCount % 2 ≠ 0
  let fadeFames : Nat := 8
  let allOnFrame : Frame := (List.range ledCount).map (fun led =>
    Pixel.mk (castU8n led) maxBrightness maxBrightness maxBrightness)
  let contractFrames : FrameBuffer := (List.range (middleLed + 1)).map (fun k =>
    extinguishContractFrame ledCount maxBrightness abruptFade (middleLed - k))
  let retentionFrame : Frame :=
    if isOddCount then
      [Pixel.mk (castU8n middleLed) maxBrightness maxBrightness maxBrightness]
    else
      [Pixel.mk (castU8n (middleLed - 1)) maxBrightness maxBrightness maxBrightness,
       Pixel.mk (castU8n middleLed) maxBrightness maxBrightness maxBrightness]
  let retentionFrames : FrameBuffer :=
    if 0 < retentionTime then
      List.replicate (max 1 (retentionTime / 100)) retentionFrame
    else []
  let fadeOutFrames : FrameBuffer := (List.range fadeFames).map (fun k =>
    let i := fadeFames - k
    let brightness := castU8 ((maxBrightness : ℚ) * ((i : ℚ) / (fadeFames : ℚ)))
    if isOddCount then
      [Pixel.mk (castU8n middleLed) brightness brightness brightness]
    else
      [Pixel.mk (castU8n (middleLed - 1)) brightness brightness brightness,
       Pixel.mk (castU8n middleLed) brightness brightness brightness])
  Animation.ofName "Extinguishing Bar"
    ([allOnFrame] ++ contractFrames ++ retentionFrames ++ fadeOutFrames)

/-- One contracting-bar frame of the src/unnamed/part_010 variant
(lines 440-472): a pixel is appended whenever it is within the bar or
`abruptFade` is false, possibly with brightness 0. -/
def extinguishContractFrameP10 (ledCount maxBrightness : Nat) (abruptFade : Bool)
    (extent : Nat) : Frame :=
  let middleLed := ledCount / 2
  (List.range ledCount).filterMap (fun (led : Nat) =>
    let withinBar : Prop :=
      (middleLed : Int) - extent ≤ led ∧ (led : Int) ≤ middleLed + extent
    if (withinBar ∨ ¬ abruptFade = true) then
      let brightness : Nat :=
        if withinBar then maxBrightness
        else
          let distance : Nat :=
            min ((led : Int) - ((middleLed : Int) - extent)).natAbs
                ((led : Int) - ((middleLed : Int) + extent)).natAbs
          maxBrightness - distance * 25
      some (Pixel.mk (castU8n led) brightness brightness brightness)
    else none)

/-- `createExtinguishingBarAnimation` of src/unnamed/part_010 lines
409-516: all-on frame, contracting-bar frames, `(uint8_t)(retentionTime /
100)` retention frames holding the center LED, then the final all-off
frame (appended at line 510). -/
def createExtinguishingBarAnimationP10 (ledCount maxBrightness retentionTime : Nat)
    (abruptFade : Bool) : Animation :=
  let middleLed := ledCount / 2
  let allOnFrame : Frame := (List.range ledCount).map (fun led =>
    Pixel.mk (castU8n led) maxBrightness maxBrightness maxBrightness)
  let contractFrames : FrameBuffer := (List.range (middleLed + 1)).map (fun k =>
    extinguishContractFrameP10 ledCount maxBrightness abruptFade (middleLed - k))
  let retentionFrames : FrameBuffer :=
    if 0 < retentionTime then
      List.replicate (castU8n (retentionTime / 100))
        [Pixel.mk (castU8n middleLed) maxBrightness maxBrightness maxBrightness]
    else []
  let allOffFrame : Frame := (List.range ledCount).map (fun led =>
    Pixel.mk (castU8n led) 0 0 0)
  Animation.ofName "Extinguishing Bar"
    ([allOnFrame] ++ contractFrames ++ retentionFrames ++ [allOffFrame])

/-- A two-frame animation used to exercise the render loop. -/
def blinkTwo : Animation :=
  Animation.ofName "Blink" [[Pixel.mk 0 10 0 0], [Pixel.mk 0 0 10 0]]

/-- A running renderer with `repeat = false` and a two-frame animation. -/
def rendTwoFrames : Renderer :=
  { rend0 with isRunning_ := true, repeatFlag := false, currentAnimation := blinkTwo }

/-- The renderer of specification scenario 3: five LEDs. -/
def rend5 : Renderer :=
  { rend0 with ledCount := 5, screen := NeoPixel.cleared 5 }

/-- The last pixel of `frame` addressed to LED `i` that the staging loop of
`writeFrameToScreen` accepts (its index equals `i` and is strictly below
the LED count) - the specification-side description of what ends up staged
on LED `i`. -/
def lastHit (led i : Nat) : Frame → Option Pixel
  | [] => none
  | p :: rest =>
    match lastHit led i rest with
    | some q => some q
    | none => if p.index = i ∧ p.index < led then some p else none

/-- The frame of specification scenario 3: pixels at indices 2, 5 and 7. -/
def frame257 : Frame := [Pixel.mk 2 100 100 100, Pixel.mk 5 10 10 10, Pixel.mk 7 9 9 9]

/-- A concrete cosine implementation taking the two values the breathe
theorem assumes (value 1 at 0 and value -1 at the chosen pi constant 1),
used to instantiate that theorem. -/
def cosWitness : ℚ → ℚ := fun x => if x = 0 then 1 else -1

/-- C9: for all Pixels p and q (in particular distinct objects), after the
assignment `p = q` the index of p is unchanged while the color channels of
p equal those of q. -/
theorem pixel_assign_spec (p q : Pixel) :
    (p.assign q).index = p.index
    ∧ (p.assign q).r = q.r ∧ (p.assign q).g = q.g ∧ (p.assign q).b = q.b :=
  ⟨rfl, rfl, rfl, rfl⟩

/-- C10: what the two setRepeat implementations actually do.  In the
src/unnamed/part_003 variant, `setRepeat(true)` stores the repeat flag and
then re-locks the renderer's own non-recursive mutex inside `setRunning`,
which deadlocks (modeled as `none`): the running flag is never set.
`setRepeat(false)` only stores the repeat flag.  The src/unnamed/part_001
variant releases its semaphore first and does set both flags on `true`. -/
theorem setRepeat_divergence :
    (∀ rend : Renderer, rend.setRepeat true = none)
    ∧ (∀ rend : Renderer,
        rend.setRepeat false = some { rend with repeatFlag := false })
    ∧ (∀ r : RendererV1,
        (r.setRepeat true).REPEAT = true ∧ (r.setRepeat true).RUNNING = true)
    ∧ (∀ r : RendererV1, r.setRepeat false = { r with REPEAT := false }) :=
  ⟨fun _ => rfl, fun _ => rfl, fun _ => ⟨rfl, rfl⟩, fun _ => rfl⟩

/-- C2 counterexample: the claim states that every `setSpeed` call both
clamps to a positive floor and sets `exitEarly`; at input 0, the
src/unnamed/part_003 variant leaves `exitEarly` false and the
src/unnamed/part_001 variant stores speed 0. -/
theorem setSpeed_claim_counterexample :
    (rend0.setSpeed 0).exitEarly = false ∧ (rendV1def.setSpeed 0).SPEED = 0 :=
  ⟨rfl, rfl⟩

/-- C2 (amended): the src/unnamed/part_003 `setSpeed` stores
`max(0.1f, x)` - hence at least the positive floor 0.1f and never 0 - and
leaves `exitEarly` (and so the delay-interruption behaviour) unchanged;
the src/unnamed/part_001 `setSpeed` stores `x` unclamped and sets
`exitEarly` true. -/
theorem setSpeed_amended (rend : Renderer) (r1 : RendererV1) (x : ℚ) :
    ((rend.setSpeed x).speedCoefficient = max minSpeedFloat x
      ∧ minSpeedFloat ≤ (rend.setSpeed x).speedCoefficient
      ∧ 0 < (rend.setSpeed x).speedCoefficient
      ∧ (rend.setSpeed x).exitEarly = rend.exitEarly)
    ∧ ((r1.setSpeed x).SPEED = x ∧ (r1.setSpeed x).earlyExit = true) := by
  have hpos : (0 : ℚ) < minSpeedFloat := by norm_num [minSpeedFloat]
  exact ⟨⟨rfl, le_max_left _ _, lt_of_lt_of_le hpos (le_max_left _ _), rfl⟩,
    rfl, rfl⟩

/-- C8: `setLedCount(0)` is rejected with the renderer unchanged, any
count above 65535 (the uint16_t maximum, which the parameter type cannot
even represent) is rejected, and every accepted count is stored and the
strip representation resized to it. -/
theorem setLedCount_spec :
    (∀ rend : Renderer, rend.setLedCount 0 = rend)
    ∧ (∀ (rend : Renderer) (n : Nat), 65535 < n → rend.setLedCount n = rend)
    ∧ (∀ (rend : Renderer) (n : Nat), n ≠ 0 → n ≤ 65535 →
        (rend.setLedCount n).ledCount = n
        ∧ (rend.setLedCount n).screen.numLEDs = n) := by
  refine ⟨?_, ?_, ?_⟩
  · intro rend
    simp [Renderer.setLedCount]
  · intro rend n h
    rw [Renderer.setLedCount, if_pos (Or.inr h)]
  · intro rend n h0 hle
    have hcond : ¬ (n = 0 ∨ 65535 < n) := by
      push_neg
      exact ⟨h0, hle⟩
    rw [Renderer.setLedCount, if_neg hcond]
    exact ⟨rfl, rfl⟩

/-- C8 witness: the theorem applied at the default renderer with the
rejected count 70000 and the accepted count 24. -/
theorem setLedCount_spec_witness :
    rend0.setLedCount 70000 = rend0
    ∧ (rend0.setLedCount 24).ledCount = 24
    ∧ (rend0.setLedCount 24).screen.numLEDs = 24 :=
  ⟨setLedCount_spec.2.1 rend0 70000 (by norm_num),
   (setLedCount_spec.2.2 rend0 24 (by norm_num) (by norm_num)).1,
   (setLedCount_spec.2.2 rend0 24 (by norm_num) (by norm_num)).2⟩

/-- The source's hash step `((hash << 5) + hash) + c` agrees with the
spec's `hash * 33 + c` on the 32-bit word. -/
theorem hashStep_eq (h c : Nat) : hashStep h c = (h * 33 + c) % U32 := by
  unfold hashStep
  rw [Nat.shiftLeft_eq]
  ring_nf

/-- Folding the source's hash step agrees with folding the spec's step. -/
theorem foldl_hashStep_eq (l : List Nat) (h : Nat) :
    l.foldl hashStep h = l.foldl (fun h c => (h * 33 + c) % U32) h := by
  induction l generalizing h with
  | nil => rfl
  | cons c rest ih => rw [List.foldl_cons, List.foldl_cons, hashStep_eq, ih]

/-- Every single Animation operation preserves the name-hash invariant
(assignment sources are assumed to satisfy it themselves). -/
theorem hashInv_apply (a : Animation) (op : AnimOp)
    (ha : hashInv a) (hop : op.ok) : hashInv (op.apply a) := by
  cases op with
  | setName s => simp [AnimOp.apply, Animation.setName, hashInv]
  | setFrames fb => simpa [AnimOp.apply, Animation.setFrames, hashInv] using ha
  | clearFrames => simp [AnimOp.apply, Animation.clearFrames, hashInv]
  | assign other => simpa [AnimOp.apply, Animation.assign, hashInv,
      AnimOp.ok] using hop

/-- The name-hash invariant is preserved along any operation sequence. -/
theorem hashInv_foldl (ops : List AnimOp) (a : Animation)
    (ha : hashInv a) (hops : ∀ op ∈ ops, op.ok) :
    hashInv (ops.foldl AnimOp.apply a) := by
  induction ops generalizing a with
  | nil => exact ha
  | cons op rest ih =>
    exact ih _ (hashInv_apply a op ha (hops op (by simp)))
      (fun o ho => hops o (by simp [ho]))

/-- C4: for every Animation built by the named constructor and every
sequence of its operations (setName, setFrames, clearFrames, copy / move
assignment from an invariant-satisfying animation), `nameHash` always
equals the hash of the current name; in particular after any `setName(s)`
the stored hash is the hash of `s`; and the source's hash function is
exactly the DJB2 hash (h = 5381; h = h*33 + c per byte, on 32 bits) the
specification describes. -/
theorem animation_nameHash_invariant :
    (∀ (s : String) (fb : FrameBuffer) (ops : List AnimOp),
        (∀ op ∈ ops, op.ok) →
        hashInv (ops.foldl AnimOp.apply (Animation.ofName s fb)))
    ∧ (∀ (a : Animation) (s : String),
        (a.setName s).nameHash = hash_string_runtime s)
    ∧ (∀ s : String, hash_string_runtime s = hashDJB2 s) := by
  refine ⟨?_, fun a s => rfl, ?_⟩
  · intro s fb ops hops
    exact hashInv_foldl ops _ rfl hops
  · intro s
    unfold hash_string_runtime hashDJB2
    exact foldl_hashStep_eq (strBytes s) 5381

/-- C4 witness: the invariant after a concrete operation sequence from a
concrete construction, with the assignment-source hypothesis discharged by
evaluation. -/
theorem animation_nameHash_invariant_witness :
    hashInv (([AnimOp.setName "Blink", AnimOp.clearFrames,
      AnimOp.setFrames [[Pixel.mk 0 1 2 3]],
      AnimOp.assign (Animation.ofName "Breathe" [])]).foldl AnimOp.apply
      (Animation.ofName "Pulse" [])) := by
  refine animation_nameHash_invariant.1 "Pulse" [] _ ?_
  intro op hop
  simp only [List.mem_cons, List.not_mem_nil, or_false] at hop
  rcases hop with h | h | h | h <;> subst h <;>
    simp [AnimOp.ok, hashInv, Animation.ofName]


/-- If the early-exit flag reads false at every scheduled poll, the chunk
loop completes all its chunks: the poll index advances by the chunk count
and one chunk's worth of sleep accumulates per chunk. -/
theorem chunkPhase_all_false (polls : Nat → Bool) (check : Nat) :
    ∀ (k i slept : Nat), (∀ j, j < k → polls (i + j) = false) →
      chunkPhase polls check k i slept = Sum.inr (i + k, slept + k * check) := by
  intro k
  induction k with
  | zero => intro i slept _; simp [chunkPhase]
  | succ k ih =>
    intro i slept h
    have h0 : polls i = false := by simpa using h 0 (Nat.succ_pos k)
    have hrec := ih (i + 1) (slept + check) (fun j hj => by
      rw [show i + 1 + j = i + (j + 1) from by omega]
      exact h (j + 1) (by omega))
    rw [chunkPhase, h0]
    simp only [Bool.false_eq_true, if_false]
    rw [hrec]
    have e1 : i + 1 + k = i + (k + 1) := by omega
    have e2 : slept + check + k * check = slept + (k + 1) * check := by ring
    rw [e1, e2]

/-- A delay whose every poll reads false is never interrupted. -/
theorem interruptableDelay_const_false (ms check : Nat) :
    (interruptableDelay ms check (fun _ => false)).1 = false := by
  have h := chunkPhase_all_false (fun _ => false) check (ms / check) 0 0
    (fun _ _ => rfl)
  simp only [interruptableDelay, h]
  simp only [Bool.false_eq_true, if_false]
  split <;> rfl

/-- C1: what the hash-variant render loop does on a running renderer with
`repeat = false` and a two-frame animation, in a quiescent environment:
it writes only frame 0 and then sets `isRunning` to false - the
`if (!state.repeat)` branch runs after every frame, not only after the
last one, so the pass stops early with a frame remaining. -/
theorem render_repeatFalse_divergence :
    (render rendTwoFrames).2 = [0]
    ∧ (render rendTwoFrames).1.isRunning_ = false
    ∧ rendTwoFrames.currentAnimation.frames.length = 2 := by
  refine ⟨?_, ?_, rfl⟩ <;>
    simp [render, renderLoop, rendTwoFrames, rend0, blinkTwo, Animation.ofName,
      Renderer.isRunning, Renderer.isAnimationEmpty, Renderer.outputState,
      Renderer.getEarlyExit, Renderer.writeFrameToScreen, Renderer.setRunning,
      interruptableDelay_const_false]

set_option maxHeartbeats 8000000 in
/-- C6: the frame sequence of `createExtinguishingBarAnimation(11, 255,
300, true)`.  The src/render.cpp variant produces 18 frames - all-on, 6
contracting frames, exactly 3 retention frames, then 8 fade-out frames -
and its final frame (index 17) is the dim center pixel (5, 31, 31, 31),
not an all-off frame: the all-off frame its source declares is never
appended.  The src/unnamed/part_010 variant produces exactly the claimed
sequence of 11 frames: all-on over 11 pixels (index 0), contracting
frames, exactly 3 retention frames (indices 7, 8, 9), and a final all-off
frame (index 10). -/
theorem extinguishingBar_divergence :
    ((createExtinguishingBarAnimation 11 255 300 true).frames.length = 18
      ∧ (createExtinguishingBarAnimation 11 255 300 true).frames.getD 17 []
          = [Pixel.mk 5 31 31 31])
    ∧ ((createExtinguishingBarAnimationP10 11 255 300 true).frames.length = 11
      ∧ (createExtinguishingBarAnimationP10 11 255 300 true).frames.getD 0 []
          = (List.range 11).map (fun led => Pixel.mk led 255 255 255)
      ∧ (createExtinguishingBarAnimationP10 11 255 300 true).frames.getD 7 []
          = [Pixel.mk 5 255 255 255]
      ∧ (createExtinguishingBarAnimationP10 11 255 300 true).frames.getD 8 []
          = [Pixel.mk 5 255 255 255]
      ∧ (createExtinguishingBarAnimationP10 11 255 300 true).frames.getD 9 []
          = [Pixel.mk 5 255 255 255]
      ∧ (createExtinguishingBarAnimationP10 11 255 300 true).frames.getD 10 []
          = (List.range 11).map (fun led => Pixel.mk led 0 0 0)) := by
  refine ⟨⟨?_, ?_⟩, ?_, ?_, ?_, ?_, ?_, ?_⟩
  · norm_num [createExtinguishingBarAnimation, extinguishContractFrame,
      Animation.ofName]
  · norm_num [createExtinguishingBarAnimation, extinguishContractFrame,
      Animation.ofName, castU8, castU8n, List.range_succ, List.replicate_succ]
    decide
  all_goals
    norm_num [createExtinguishingBarAnimationP10, extinguishContractFrameP10,
      Animation.ofName, castU8n, List.range_succ, List.replicate_succ]

/-- Staging one pixel never changes the strip length. -/
theorem stageStep_numLEDs (led : Nat) (coef : ℚ) (scr : NeoPixel) (p : Pixel) :
    (stageStep led coef scr p).numLEDs = scr.numLEDs := by
  unfold stageStep NeoPixel.setPixelColor
  split
  · rfl
  · split <;> rfl

/-- Unfolding equation of `lastHit` on a cons cell. -/
theorem lastHit_cons (led i : Nat) (p : Pixel) (rest : Frame) :
    lastHit led i (p :: rest) = match lastHit led i rest with
      | some q => some q
      | none => if p.index = i ∧ p.index < led then some p else none := rfl

/-- No accepted pixel can address an LED at or beyond the LED count. -/
theorem lastHit_none_of_le (led i : Nat) (h : led ≤ i) :
    ∀ frame : Frame, lastHit led i frame = none := by
  intro frame
  induction frame with
  | nil => rfl
  | cons p rest ih =>
    rw [lastHit_cons, ih, if_neg]
    rintro ⟨h1, h2⟩
    omega

/-- The staging fold of `writeFrameToScreen` leaves LED `i` holding the
scaled color of the last accepted pixel addressed to `i`, or its previous
color if the frame holds no such pixel. -/
theorem stageFold_colors (led : Nat) (coef : ℚ) (frame : Frame) :
    ∀ (scr : NeoPixel), led ≤ scr.numLEDs → ∀ i,
      (frame.foldl (stageStep led coef) scr).colors i =
        match lastHit led i frame with
        | some p => stagedPixel coef p
        | none => scr.colors i := by
  induction frame with
  | nil => intro scr _ i; rfl
  | cons p rest ih =>
    intro scr hsync i
    rw [List.foldl_cons]
    rw [ih (stageStep led coef scr p) (by rw [stageStep_numLEDs]; exact hsync) i]
    rw [lastHit_cons]
    cases hrest : lastHit led i rest with
    | some q => rfl
    | none =>
      show (stageStep led coef scr p).colors i = _
      unfold stageStep NeoPixel.setPixelColor
      by_cases hle : led ≤ p.index
      · rw [if_pos hle, if_neg (by rintro ⟨h1, h2⟩; omega)]
      · have hplt : p.index < led := Nat.lt_of_not_le hle
        rw [if_neg hle, if_pos (lt_of_lt_of_le hplt hsync)]
        simp only
        by_cases hei : i = p.index
        · rw [if_pos hei, if_pos ⟨hei.symm, hplt⟩]
        · rw [if_neg hei, if_neg (by rintro ⟨h1, h2⟩; exact hei h1.symm)]

/-- C3: on a strip at least as long as the LED count, `writeFrameToScreen`
flushes exactly once, stages on each LED below the LED count the
brightness-scaled color of the last frame pixel addressed to it (nothing
when the frame holds none), leaves every LED at or beyond the LED count
unaltered, and (being a total function of the model) does not fault. -/
theorem writeFrameToScreen_spec (rend : Renderer) (frame : Frame)
    (hsync : rend.ledCount ≤ rend.screen.numLEDs) :
    ((rend.writeFrameToScreen frame).2 = 1)
    ∧ (∀ i, (rend.writeFrameToScreen frame).1.screen.colors i =
        match lastHit rend.ledCount i frame with
        | some p => stagedPixel rend.peakBrightnessCoefficient p
        | none => rend.screen.colors i)
    ∧ (∀ i, rend.ledCount ≤ i →
        (rend.writeFrameToScreen frame).1.screen.colors i = rend.screen.colors i)
    ∧ (rend.writeFrameToScreen frame).1.ledCount = rend.ledCount := by
  have hcolors := stageFold_colors rend.ledCount rend.peakBrightnessCoefficient
    frame rend.screen hsync
  refine ⟨rfl, fun i => hcolors i, fun i hi => ?_, rfl⟩
  have h := hcolors i
  rw [lastHit_none_of_le rend.ledCount i hi frame] at h
  exact h

/-- C3 witness: specification scenario 3 - five LEDs, a frame with pixels
at indices 2, 5 and 7: one flush, and LEDs 5 and 7 are untouched. -/
theorem writeFrameToScreen_spec_witness :
    (rend5.writeFrameToScreen frame257).2 = 1
    ∧ (rend5.writeFrameToScreen frame257).1.screen.colors 5 = rend5.screen.colors 5
    ∧ (rend5.writeFrameToScreen frame257).1.screen.colors 7 = rend5.screen.colors 7 := by
  have h := writeFrameToScreen_spec rend5 frame257 (by decide)
  exact ⟨h.1, h.2.2.1 5 (by decide), h.2.2.1 7 (by decide)⟩

/-- If the early-exit flag first reads true at the (j+1)-th scheduled poll
of the chunk loop, the loop returns immediately there, having slept `j`
whole chunks. -/
theorem chunkPhase_first_true (polls : Nat → Bool) (check : Nat) :
    ∀ (k i slept j : Nat), j < k → polls (i + j) = true →
      (∀ m, m < j → polls (i + m) = false) →
      chunkPhase polls check k i slept = Sum.inl (true, i + j + 1, slept + j * check) := by
  intro k
  induction k with
  | zero => intro i slept j hj _ _; exact absurd hj (Nat.not_lt_zero j)
  | succ k ih =>
    intro i slept j hj htrue hfalse
    cases j with
    | zero =>
      have h0 : polls i = true := by simpa using htrue
      rw [chunkPhase, h0]
      simp
    | succ j =>
      have h0 : polls i = false := by simpa using hfalse 0 (Nat.succ_pos j)
      rw [chunkPhase, h0]
      simp only [Bool.false_eq_true, if_false]
      have hrec := ih (i + 1) (slept + check) j (by omega)
        (by rw [show i + 1 + j = i + (j + 1) from by omega]; exact htrue)
        (fun m hm => by
          rw [show i + 1 + m = i + (m + 1) from by omega]
          exact hfalse (m + 1) (by omega))
      rw [hrec]
      have e1 : i + 1 + j + 1 = i + (j + 1) + 1 := by omega
      have e2 : slept + check + j * check = slept + (j + 1) * check := by ring
      rw [e1, e2]

/-- C7: with a positive check interval, `interruptableDelay` polls the
early-exit flag once per whole chunk, once more before a partial remainder
chunk, and once at the end (`totalPolls` of them); if every scheduled poll
reads false it sleeps the full duration and returns false, and if poll `j`
is the first to read true it returns true right there - after `j + 1`
polls, having slept only the chunks before that poll - and, reading the
flag through the `polls` stream only, never clears it. -/
theorem interruptableDelay_spec (ms check : Nat) (polls : Nat → Bool)
    (hc : 0 < check) :
    ((∀ j, j < totalPolls ms check → polls j = false) →
        interruptableDelay ms check polls = (false, totalPolls ms check, ms))
    ∧ (∀ j, j < totalPolls ms check → polls j = true →
        (∀ m, m < j → polls m = false) →
        interruptableDelay ms check polls = (true, j + 1, sleptBeforePoll ms check j)) := by
  have hdm : check * (ms / check) + ms % check = ms := Nat.div_add_mod ms check
  have hrem : ms % check < check := Nat.mod_lt ms hc
  have hchkle : ms / check * check ≤ ms := by
    rw [Nat.mul_comm]; omega
  constructor
  · intro hall
    by_cases hz : ms % check = 0
    · have htp : totalPolls ms check = ms / check + 1 := by
        simp [totalPolls, hz]
      have hchunks := chunkPhase_all_false polls check (ms / check) 0 0
        (fun j hj => by simpa using hall j (by omega))
      simp only [interruptableDelay, hchunks]
      rw [htp]
      simp only [Nat.zero_add, hz, Nat.lt_irrefl, if_false]
      rw [hall (ms / check) (by omega)]
      have hms : ms / check * check = ms := by rw [Nat.mul_comm]; omega
      rw [hms]
    · have htp : totalPolls ms check = ms / check + 2 := by
        simp [totalPolls, hz]
      have hchunks := chunkPhase_all_false polls check (ms / check) 0 0
        (fun j hj => by simpa using hall j (by omega))
      simp only [interruptableDelay, hchunks]
      rw [htp]
      have hpos : 0 < ms % check := Nat.pos_of_ne_zero hz
      simp only [Nat.zero_add, if_pos hpos]
      rw [hall (ms / check) (by omega), hall (ms / check + 1) (by omega)]
      have hms : ms / check * check + ms % check = ms := by rw [Nat.mul_comm]; omega
      simp only [Bool.false_eq_true, if_false]
      rw [hms]
  · intro j hj htrue hfalse
    by_cases hjc : j < ms / check
    · have hchunks := chunkPhase_first_true polls check (ms / check) 0 0 j hjc
        (by simpa using htrue) (fun m hm => by simpa using hfalse m hm)
      simp only [interruptableDelay, hchunks]
      have hslept : sleptBeforePoll ms check j = j * check := by
        unfold sleptBeforePoll
        have h1 : j * check ≤ ms / check * check :=
          Nat.mul_le_mul_right check (Nat.le_of_lt hjc)
        exact Nat.min_eq_left (le_trans h1 hchkle)
      rw [hslept]
      simp
    · have hchunks := chunkPhase_all_false polls check (ms / check) 0 0
        (fun m hm => by simpa using hfalse m (by omega))
      simp only [interruptableDelay, hchunks]
      by_cases hz : ms % check = 0
      · have htp : totalPolls ms check = ms / check + 1 := by simp [totalPolls, hz]
        have hje : j = ms / check := by omega
        subst hje
        simp only [Nat.zero_add, hz, Nat.lt_irrefl, if_false]
        rw [htrue]
        have hslept : sleptBeforePoll ms check (ms / check) = ms / check * check := by
          unfold sleptBeforePoll
          exact Nat.min_eq_left hchkle
        rw [hslept]
      · have htp : totalPolls ms check = ms / check + 2 := by simp [totalPolls, hz]
        have hpos : 0 < ms % check := Nat.pos_of_ne_zero hz
        simp only [Nat.zero_add, if_pos hpos]
        rcases (by omega : j = ms / check ∨ j = ms / check + 1) with hje | hje
        · subst hje
          rw [htrue]
          have hslept : sleptBeforePoll ms check (ms / check) = ms / check * check := by
            unfold sleptBeforePoll
            exact Nat.min_eq_left hchkle
          rw [hslept]
          simp
        · have hne : ms / check < j := by omega
          rw [hfalse (ms / check) hne]
          simp only [Bool.false_eq_true, if_false]
          subst hje
          rw [htrue]
          have hms : ms / check * check + ms % check = ms := by rw [Nat.mul_comm]; omega
          have hge : ms ≤ (ms / check + 1) * check := by
            have hx : (ms / check + 1) * check = ms / check * check + check := by ring
            omega
          have hslept : sleptBeforePoll ms check (ms / check + 1) = ms := by
            unfold sleptBeforePoll
            exact Nat.min_eq_right hge
          rw [hms, hslept]

/-- C7 witness: a 25 ms delay with 10 ms checks - never interrupted it
makes 4 polls and sleeps 25 ms; with the flag first true at poll index 2
(the remainder poll) it returns true after 3 polls and 20 ms slept. -/
theorem interruptableDelay_spec_witness :
    interruptableDelay 25 10 (fun _ => false) = (false, 4, 25)
    ∧ interruptableDelay 25 10 (fun k => k == 2) = (true, 3, 20) := by
  constructor
  · have h := (interruptableDelay_spec 25 10 (fun _ => false) (by norm_num)).1
      (fun j _ => rfl)
    simpa [totalPolls] using h
  · have h := (interruptableDelay_spec 25 10 (fun k => k == 2) (by norm_num)).2
      2 (by norm_num [totalPolls]) (by decide) (by decide)
    simpa [sleptBeforePoll] using h

/-- getD of a mapped range at an in-range index. -/
theorem getD_range_map {α : Type} (n : Nat) (f : Nat → α) (d : α) (i : Nat)
    (h : i < n) : ((List.range n).map f).getD i d = f i := by
  rw [List.getD_eq_getElem?_getD, List.getElem?_map, List.getElem?_range h]
  rfl

/-- At frame 0 the eased sine is 0 (cos 0 = 1), so the channel value is
exactly the byte of minBrightness * 255. -/
theorem breatheVal_zero (cosQ : ℚ → ℚ) (piQ minB maxB : ℚ) (hcos0 : cosQ 0 = 1) :
    breatheVal cosQ piQ minB maxB 0 = castU8 (minB * 255) := by
  simp only [breatheVal]
  congr 1
  rw [show ((0 : Nat) : ℚ) / 90 * piQ * 2 = 0 by push_cast; ring, hcos0]
  ring

/-- At frame 45 the cosine argument is exactly the pi constant, so the
eased sine is 1 and the channel value is the byte of maxBrightness * 255. -/
theorem breatheVal_half (cosQ : ℚ → ℚ) (piQ minB maxB : ℚ) (hcospi : cosQ piQ = -1) :
    breatheVal cosQ piQ minB maxB 45 = castU8 (maxB * 255) := by
  simp only [breatheVal]
  congr 1
  rw [show ((45 : Nat) : ℚ) / 90 * piQ * 2 = piQ by push_cast; ring, hcospi]
  ring

/-- Frame i of the breathe animation is the dense frame setting every LED
to the frame's single eased-sine channel value. -/
theorem breathe_frames (cosQ : ℚ → ℚ) (piQ : ℚ) (ledCount : Nat)
    (minB maxB freq : ℚ) (i : Nat) (hi : i < 90) :
    (createBreatheAnimation cosQ piQ ledCount minB maxB freq).frames.getD i [] =
      (List.range ledCount).map (fun led =>
        Pixel.mk (castU8n led) (breatheVal cosQ piQ minB maxB i)
          (breatheVal cosQ piQ minB maxB i) (breatheVal cosQ piQ minB maxB i)) := by
  simp only [createBreatheAnimation, Animation.ofName]
  exact getD_range_map 90 _ [] i hi

/-- C5: for every ledCount, minBrightness, maxBrightness and frequency,
and any cosine implementation with cos 0 = 1 and cos pi = -1,
`createBreatheAnimation` returns an Animation named "Breathe" with exactly
90 frames; frame i is dense - exactly ledCount pixels, pixel `led` at
index `led`, all carrying the same channel value derived from the eased
sine `(minB + (maxB - minB) * (1/2 - 1/2 * cos(2 * pi * i / 90))) * 255` -
and in particular frame 0 carries the byte of minBrightness * 255 and
frame 45 the byte of maxBrightness * 255 (exact in the rational model,
approximating the float computation). -/
theorem createBreatheAnimation_spec (cosQ : ℚ → ℚ) (piQ : ℚ) (ledCount : Nat)
    (minBrightness maxBrightness frequency : ℚ)
    (hcos0 : cosQ 0 = 1) (hcospi : cosQ piQ = -1) :
    (createBreatheAnimation cosQ piQ ledCount minBrightness maxBrightness
        frequency).name = "Breathe"
    ∧ (createBreatheAnimation cosQ piQ ledCount minBrightness maxBrightness
        frequency).frames.length = 90
    ∧ (∀ i, i < 90 →
        (createBreatheAnimation cosQ piQ ledCount minBrightness maxBrightness
            frequency).frames.getD i [] =
          (List.range ledCount).map (fun led =>
            Pixel.mk (castU8n led)
              (breatheVal cosQ piQ minBrightness maxBrightness i)
              (breatheVal cosQ piQ minBrightness maxBrightness i)
              (breatheVal cosQ piQ minBrightness maxBrightness i)))
    ∧ (∀ i, i < 90 →
        ((createBreatheAnimation cosQ piQ ledCount minBrightness maxBrightness
            frequency).frames.getD i []).length = ledCount)
    ∧ breatheVal cosQ piQ minBrightness maxBrightness 0
        = castU8 (minBrightness * 255)
    ∧ breatheVal cosQ piQ minBrightness maxBrightness 45
        = castU8 (maxBrightness * 255) := by
  refine ⟨rfl, ?_, ?_, ?_, breatheVal_zero cosQ piQ _ _ hcos0,
    breatheVal_half cosQ piQ _ _ hcospi⟩
  · simp [createBreatheAnimation, Animation.ofName]
  · intro i hi
    exact breathe_frames cosQ piQ ledCount minBrightness maxBrightness frequency i hi
  · intro i hi
    rw [breathe_frames cosQ piQ ledCount minBrightness maxBrightness frequency i hi]
    simp

/-- C5 witness: the theorem instantiated at the concrete cosine
`cosWitness` (pi constant 1) and specification scenario 1's parameters
(ledCount 10, minBrightness 0.025 = 1/40, maxBrightness 1, frequency 1):
name, frame count, and the two endpoint channel values 6 and 255. -/
theorem createBreatheAnimation_spec_witness :
    (createBreatheAnimation cosWitness 1 10 (1/40) 1 1).name = "Breathe"
    ∧ (createBreatheAnimation cosWitness 1 10 (1/40) 1 1).frames.length = 90
    ∧ breatheVal cosWitness 1 (1/40) 1 0 = castU8 ((1/40) * 255)
    ∧ breatheVal cosWitness 1 (1/40) 1 45 = castU8 (1 * 255) := by
  have h := createBreatheAnimation_spec cosWitness 1 10 (1/40) 1 1
    (by norm_num [cosWitness]) (by norm_num [cosWitness])
  exact ⟨h.1, h.2.1, h.2.2.2.2.1, h.2.2.2.2.2⟩
